import Mathlib

/-!
Verification of the wine-cellar migration script (`src/data/migrate.py`) and
the PDF text-extraction dispatcher (`src/scripts/ocr/rolm_ocr_service.py`).

The Python source is shallowly embedded: pure functions become Lean
functions, the SQLite `slots` table becomes a `List Slot`, fallible Python
code (built-in `int`, unbound locals) returns `Except PyError`.
-/

namespace WineCellar

/-! ## String primitives modelling the Python built-ins used by the source -/

/-- Python exceptions that the embedded code can raise. -/
inductive PyError where
  | valueError : String → PyError
  | unboundLocal : String → PyError
deriving DecidableEq

/-- Models Python `s.startswith(pre)` (`migrate.py` line 57). -/
def pyStartswith (s pre : String) : Bool :=
  pre.data.isPrefixOf s.data

/-- Models Python `s[1:]` (code-point slicing, `migrate.py` lines 58-59). -/
def pySlice1 (s : String) : String :=
  String.mk (s.data.drop 1)

/-- Models Python `s.strip()`: drop leading and trailing whitespace.
(Python also strips some non-ASCII Unicode whitespace; the inputs in this
development are ASCII apart from letters, where the two notions agree.) -/
def pyStrip (s : String) : String :=
  String.mk (((s.data.dropWhile Char.isWhitespace).reverse.dropWhile
    Char.isWhitespace).reverse)

/-- Value of a list of decimal digit characters, most significant first. -/
def digitsToNat (l : List Char) : Nat :=
  l.foldl (fun a c => 10 * a + (c.toNat - ('0').toNat)) 0

/-- Models Python built-in `int(s)` on a string (`migrate.py` lines 58-59):
optional surrounding whitespace, an optional single sign, then a non-empty
run of decimal digits; anything else raises `ValueError`, modelled as
`none`.  (Python additionally accepts underscore digit separators and
non-ASCII digits, which never occur in this development.) -/
def pyInt (s : String) : Option Int :=
  match (pyStrip s).data with
  | [] => none
  | '+' :: rest =>
      if !rest.isEmpty && rest.all Char.isDigit then some (digitsToNat rest) else none
  | '-' :: rest =>
      if !rest.isEmpty && rest.all Char.isDigit then some (-(digitsToNat rest : Int)) else none
  | l =>
      if l.all Char.isDigit then some (digitsToNat l) else none

/-- Models the regex `re.match(r'R(\d+)C(\d+)', s)` of `migrate.py`
lines 63-64: anchored at the start, `R`, a maximal non-empty digit run
(group 1), `C`, a non-empty digit run (group 2); the rest of the string is
unconstrained, exactly as `re.match` only anchors the beginning. -/
def parseRC (s : String) : Option (Nat × Nat) :=
  match s.data with
  | 'R' :: rest =>
      let ds := rest.takeWhile Char.isDigit
      if ds.isEmpty then none
      else
        match rest.dropWhile Char.isDigit with
        | 'C' :: rest2 =>
            let cs := rest2.takeWhile Char.isDigit
            if cs.isEmpty then none else some (digitsToNat ds, digitsToNat cs)
        | _ => none
  | _ => none

/-- Models Python `range(a, b + 1)` on ints as a list
(`migrate.py` line 60): empty when `b < a`. -/
def pyRangeIncl (a b : Int) : List Int :=
  (List.range (b + 1 - a).toNat).map (fun i : Nat => a + (i : Int))

/-- Models Python `range(a, b + 1)` on naturals (`migrate.py` line 75). -/
def pyRangeInclNat (a b : Nat) : List Nat :=
  (List.range (b + 1 - a)).map (fun i => a + i)

/-! ## `parse_location_range` (migrate.py lines 48-81) -/

/-- `parse_location_range(start_loc, end_loc)` of `migrate.py` lines 48-81.
`end_loc = none` models a missing / NaN cell (`pd.isna`), `some ""` an
empty string (falsy).  The fridge branch calls `int` on both code-point
suffixes and raises `ValueError` if either fails; the cellar branch falls
back to `[start_loc]` when either regex fails to match or the rows differ. -/
def parse_location_range (start_loc : String) (end_loc : Option String) :
    Except PyError (List String) :=
  match end_loc with
  | none => .ok [start_loc]
  | some e =>
    if e.data.isEmpty then .ok [start_loc]
    else if pyStartswith start_loc "F" then
      match pyInt (pySlice1 start_loc), pyInt (pySlice1 e) with
      | some start_num, some end_num =>
          .ok ((pyRangeIncl start_num end_num).map (fun i => "F" ++ toString i))
      | _, _ => .error (.valueError "invalid literal for int() with base 10")
    else
      match parseRC start_loc, parseRC e with
      | some (start_row, start_col), some (end_row, end_col) =>
          if start_row = end_row then
            .ok ((pyRangeInclNat start_col end_col).map
              (fun col => "R" ++ toString start_row ++ "C" ++ toString col))
          else .ok [start_loc]
      | _, _ => .ok [start_loc]

example : parse_location_range "F3" (some "F6") =
    .ok ["F3", "F4", "F5", "F6"] := rfl

example : parse_location_range "R10C1" (some "R10C3") =
    .ok ["R10C1", "R10C2", "R10C3"] := rfl

example : parse_location_range "R1C7" (some "R2C1") = .ok ["R1C7"] := rfl

example : parse_location_range "F3" none = .ok ["F3"] := rfl

example : parse_location_range "Fx" (some "F1") =
    .error (.valueError "invalid literal for int() with base 10") := rfl

example : parse_location_range "F6" (some "F3") = .ok [] := rfl

/-! ## The `slots` table and `generate_slots` (migrate.py lines 23-46) -/

/-- One row of the `slots` table (schema columns used by `migrate.py`):
`wine_id` is the occupant reference, `NULL` = `none`. -/
structure Slot where
  zone : String
  location_code : String
  row_num : Nat
  col_num : Nat
  wine_id : Option Nat
deriving DecidableEq

/-- Modelled from the spec: `schema.sql` is not under `src/`.  The spec
states `location_code` is "unique string identifier" of a Slot, so
`INSERT OR IGNORE INTO slots` skips the row exactly when a row with the
same `location_code` already exists, and otherwise appends it. -/
def insertOrIgnoreSlot (db : List Slot) (s : Slot) : List Slot :=
  if db.any (fun t => t.location_code == s.location_code) then db else db ++ [s]

/-- The fridge rows inserted by `generate_slots` (migrate.py lines 27-33):
`F1`-`F9`, row 1 for `F1`-`F4`, row 2 for `F5`-`F9`. -/
def fridgeInserts : List Slot :=
  (List.range' 1 9).map (fun i =>
    { zone := "fridge", location_code := "F" ++ toString i,
      row_num := if i ≤ 4 then 1 else 2, col_num := i, wine_id := none })

/-- The cellar rows inserted by `generate_slots` (migrate.py lines 35-43):
rows 1-19, 7 columns in row 1 and 9 columns in rows 2-19. -/
def cellarInserts : List Slot :=
  (List.range' 1 19).flatMap (fun row =>
    (List.range' 1 (if row = 1 then 7 else 9)).map (fun col =>
      { zone := "cellar", location_code := "R" ++ toString row ++ "C" ++ toString col,
        row_num := row, col_num := col, wine_id := none }))

/-- `generate_slots` (migrate.py lines 23-45): issue every fridge and
cellar insert, in source order, with insert-or-ignore semantics. -/
def generate_slots (db : List Slot) : List Slot :=
  (fridgeInserts ++ cellarInserts).foldl insertOrIgnoreSlot db

/-! ## The assignment loop of `import_inventory` (migrate.py lines 123-135) -/

/-- `UPDATE slots SET wine_id = w WHERE location_code = loc`
(migrate.py lines 130-133): returns the updated table and
`cursor.rowcount`, the number of rows the statement touched. -/
def updateSlotWine (db : List Slot) (w : Nat) (loc : String) : List Slot × Nat :=
  (db.map (fun s => if s.location_code == loc then { s with wine_id := some w } else s),
   db.countP (fun s => s.location_code == loc))

/-- The `for i, loc in enumerate(...)` body of migrate.py lines 129-135
over an already-truncated location list: thread the table through the
updates and count the iterations whose `rowcount` was positive
(`slots_filled`). -/
def assignLoop (db : List Slot) (w : Nat) : List String → List Slot × Nat
  | [] => (db, 0)
  | loc :: rest =>
      let p := updateSlotWine db w loc
      let q := assignLoop p.1 w rest
      (q.1, (if 0 < p.2 then 1 else 0) + q.2)

/-- The whole slot-assignment step for one wine (migrate.py lines 128-135):
iterate over `locations[:bottle_count]`. -/
def assign (db : List Slot) (w : Nat) (locations : List String)
    (bottle_count : Nat) : List Slot × Nat :=
  assignLoop db w (locations.take bottle_count)

/-! ## `normalise_colour` (migrate.py lines 83-94) -/

/-- Models Python `str.lower` per character: ASCII letters are lowered;
`É` (the only non-ASCII uppercase letter reachable in this development)
maps to `é`; everything else is unchanged. -/
def pyLowerChar (c : Char) : Char :=
  if 'A' ≤ c && c ≤ 'Z' then Char.ofNat (c.toNat + 32)
  else if c = 'É' then 'é' else c

/-- Models Python `s.lower()` on the strings of this development. -/
def pyLower (s : String) : String :=
  String.mk (s.data.map pyLowerChar)

/-- Does `s` contain `pat` as a contiguous run of characters?
Models Python `pat in s` for the non-empty literals of migrate.py line 92. -/
def listContainsSub (pat : List Char) : List Char → Bool
  | [] => pat.isEmpty
  | c :: t => pat.isPrefixOf (c :: t) || listContainsSub pat t

/-- Models Python `pat in s` (substring containment). -/
def pyIn (pat s : String) : Bool :=
  listContainsSub pat.data s.data

/-- `normalise_colour` (migrate.py lines 83-94): lowercase, strip, exact
match for `red` / `white` / `rose`-`rosé`, substring match for sparkling,
default `white`. -/
def normalise_colour (colour : String) : String :=
  let c := pyStrip (pyLower colour)
  if c = "red" then "red"
  else if c = "white" then "white"
  else if c = "rose" ∨ c = "rosé" then "rose"
  else if pyIn "sparkl" c || pyIn "prosecco" c || pyIn "champagne" c then "sparkling"
  else "white"

example : normalise_colour "Champagne Rosé" = "sparkling" := rfl
example : normalise_colour "unknown" = "white" := rfl
example : normalise_colour " ROSÉ " = "rose" := rfl

/-! ## `extract_text_from_pdf` (rolm_ocr_service.py lines 171-197) -/

/-- The `success` dictionary shape returned by the two extractors
(`method` and `full_text`; the page list is abstracted away). -/
structure PdfSuccess where
  method : String
  full_text : String
deriving DecidableEq

/-- A value returned by `extract_text_from_pdf`: either a success
dictionary or the `{success: false, error}` failure dictionary. -/
inductive PdfOutcome where
  | success : PdfSuccess → PdfOutcome
  | failure : String → PdfOutcome
deriving DecidableEq

/-- Models `result.get("full_text", "")`. -/
def getFullText : PdfOutcome → String
  | .success p => p.full_text
  | .failure _ => ""

/-- `extract_text_from_pdf(pdf_path, force_ocr)` (rolm_ocr_service.py
lines 171-197), shallowly embedded over the module-level availability
flags.  `pymupdfText` is the `full_text` that `extract_text_with_pymupdf`
would extract from `pdf_path`; `easyocrOutcome` is what
`extract_text_with_easyocr` would return.  The local variable `result` is
threaded as an `Option`: reading it while still `none` is Python's
`UnboundLocalError`. -/
def extract_text_from_pdf (hasPyMuPDF hasEasyOCR hasPdf2Image : Bool)
    (force_ocr : Bool) (pymupdfText : String) (easyocrOutcome : PdfOutcome) :
    Except PyError PdfOutcome :=
  let result : Option PdfOutcome :=
    if hasPyMuPDF && !force_ocr then some (.success ⟨"pymupdf", pymupdfText⟩)
    else none
  match result with
  | some r =>
      if 100 < (pyStrip (getFullText r)).length then .ok r
      else if hasEasyOCR && hasPdf2Image then .ok easyocrOutcome
      else if hasPyMuPDF then .ok r
      else .ok (.failure "No PDF text extraction method available")
  | none =>
      if hasEasyOCR && hasPdf2Image then .ok easyocrOutcome
      else if hasPyMuPDF then .error (.unboundLocal "result")
      else .ok (.failure "No PDF text extraction method available")

example : extract_text_from_pdf true false true true "short" (.failure "x") =
    .error (.unboundLocal "result") := rfl

example : extract_text_from_pdf false false false false "short" (.failure "x") =
    .ok (.failure "No PDF text extraction method available") := rfl

/-! ## Spec-side descriptions used to state the theorems -/

/-- The ascending enumeration `F<s>, F<s+1>, ...` of `k` fridge codes,
written independently of the source's `range`-comprehension. -/
def ascFridge (s : Int) : Nat → List String
  | 0 => []
  | k + 1 => ("F" ++ toString s) :: ascFridge (s + 1) k

/-- The ascending enumeration `R<r>C<c>, R<r>C<c+1>, ...` of `k` cellar
codes within row `r`. -/
def ascCellar (r c : Nat) : Nat → List String
  | 0 => []
  | k + 1 => ("R" ++ toString r ++ "C" ++ toString c) :: ascCellar r (c + 1) k

/-- The full physical layout, written out literally: `F1`-`F9`, then
row 1 columns 1-7, then rows 2-19 with columns 1-9. -/
def specSlotCodes : List String := [
   "F1", "F2", "F3", "F4", "F5", "F6", "F7", "F8", "F9",
   "R1C1", "R1C2", "R1C3", "R1C4", "R1C5", "R1C6", "R1C7", "R2C1", "R2C2",
   "R2C3", "R2C4", "R2C5", "R2C6", "R2C7", "R2C8", "R2C9", "R3C1", "R3C2",
   "R3C3", "R3C4", "R3C5", "R3C6", "R3C7", "R3C8", "R3C9", "R4C1", "R4C2",
   "R4C3", "R4C4", "R4C5", "R4C6", "R4C7", "R4C8", "R4C9", "R5C1", "R5C2",
   "R5C3", "R5C4", "R5C5", "R5C6", "R5C7", "R5C8", "R5C9", "R6C1", "R6C2",
   "R6C3", "R6C4", "R6C5", "R6C6", "R6C7", "R6C8", "R6C9", "R7C1", "R7C2",
   "R7C3", "R7C4", "R7C5", "R7C6", "R7C7", "R7C8", "R7C9", "R8C1", "R8C2",
   "R8C3", "R8C4", "R8C5", "R8C6", "R8C7", "R8C8", "R8C9", "R9C1", "R9C2",
   "R9C3", "R9C4", "R9C5", "R9C6", "R9C7", "R9C8", "R9C9", "R10C1", "R10C2",
   "R10C3", "R10C4", "R10C5", "R10C6", "R10C7", "R10C8", "R10C9", "R11C1", "R11C2",
   "R11C3", "R11C4", "R11C5", "R11C6", "R11C7", "R11C8", "R11C9", "R12C1", "R12C2",
   "R12C3", "R12C4", "R12C5", "R12C6", "R12C7", "R12C8", "R12C9", "R13C1", "R13C2",
   "R13C3", "R13C4", "R13C5", "R13C6", "R13C7", "R13C8", "R13C9", "R14C1", "R14C2",
   "R14C3", "R14C4", "R14C5", "R14C6", "R14C7", "R14C8", "R14C9", "R15C1", "R15C2",
   "R15C3", "R15C4", "R15C5", "R15C6", "R15C7", "R15C8", "R15C9", "R16C1", "R16C2",
   "R16C3", "R16C4", "R16C5", "R16C6", "R16C7", "R16C8", "R16C9", "R17C1", "R17C2",
   "R17C3", "R17C4", "R17C5", "R17C6", "R17C7", "R17C8", "R17C9", "R18C1", "R18C2",
   "R18C3", "R18C4", "R18C5", "R18C6", "R18C7", "R18C8", "R18C9", "R19C1", "R19C2",
   "R19C3", "R19C4", "R19C5", "R19C6", "R19C7", "R19C8", "R19C9"]

/-! ## Lemmas about `parse_location_range` -/

theorem range_map_eq_ascFridge (k : Nat) :
    ∀ a : Int, (List.range k).map (fun i : Nat => "F" ++ toString (a + (i : Int)))
      = ascFridge a k := by
  induction k with
  | zero => intro a; rfl
  | succ n ih =>
      intro a
      rw [List.range_succ_eq_map, List.map_cons, List.map_map]
      have h1 : ∀ i : Nat, a + ((Nat.succ i : Nat) : Int) = (a + 1) + (i : Int) := by
        intro i; push_cast; ring
      show ("F" ++ toString (a + ((0 : Nat) : Int))) ::
          (List.range n).map ((fun i : Nat => "F" ++ toString (a + (i : Int))) ∘ Nat.succ)
        = ("F" ++ toString a) :: ascFridge (a + 1) n
      congr 1
      · norm_num
      · rw [← ih (a + 1)]
        apply List.map_congr_left
        intro i _
        simp only [Function.comp_apply, h1]

theorem range_map_eq_ascCellar (r : Nat) (k : Nat) :
    ∀ c : Nat, (List.range k).map (fun i => "R" ++ toString r ++ "C" ++ toString (c + i))
      = ascCellar r c k := by
  induction k with
  | zero => intro c; rfl
  | succ n ih =>
      intro c
      rw [List.range_succ_eq_map, List.map_cons, List.map_map]
      show ("R" ++ toString r ++ "C" ++ toString (c + 0)) ::
          (List.range n).map ((fun i : Nat => "R" ++ toString r ++ "C" ++ toString (c + i)) ∘ Nat.succ)
        = ("R" ++ toString r ++ "C" ++ toString c) :: ascCellar r (c + 1) n
      congr 1
      · rw [← ih (c + 1)]
        apply List.map_congr_left
        intro i _
        simp only [Function.comp_apply]
        congr 2
        omega

theorem fridge_list_eq (a b : Int) :
    (pyRangeIncl a b).map (fun i => "F" ++ toString i) = ascFridge a (b + 1 - a).toNat := by
  unfold pyRangeIncl
  rw [List.map_map, ← range_map_eq_ascFridge (b + 1 - a).toNat a]
  rfl

theorem cellar_list_eq (r a b : Nat) :
    (pyRangeInclNat a b).map (fun col => "R" ++ toString r ++ "C" ++ toString col)
      = ascCellar r a (b + 1 - a) := by
  unfold pyRangeInclNat
  rw [List.map_map, ← range_map_eq_ascCellar r (b + 1 - a) a]
  rfl

theorem data_isEmpty_false {e : String} (h : e.data ≠ []) : e.data.isEmpty = false := by
  cases hd : e.data with
  | nil => exact absurd hd h
  | cons a t => simp

/-- A string the cellar regex accepts starts with `R`, hence neither with
`F` nor empty. -/
theorem parseRC_flags {s : String} {p : Nat × Nat} (h : parseRC s = some p) :
    pyStartswith s "F" = false ∧ s.data ≠ [] := by
  unfold parseRC at h
  split at h
  · next rest heq =>
      constructor
      · simp [pyStartswith, heq, List.isPrefixOf]
      · simp [heq]
  · exact absurd h (by simp)

theorem parse_fridge_eq (s e : String) (sn en : Int)
    (hF : pyStartswith s "F" = true)
    (hs : pyInt (pySlice1 s) = some sn) (he : pyInt (pySlice1 e) = some en)
    (hne : e.data ≠ []) :
    parse_location_range s (some e) = .ok (ascFridge sn (en + 1 - sn).toNat) := by
  simp only [parse_location_range, data_isEmpty_false hne, hF, hs, he,
    Bool.false_eq_true, if_false, if_true, fridge_list_eq]

theorem parse_fridge_error (s e : String)
    (hF : pyStartswith s "F" = true) (hne : e.data ≠ [])
    (h : pyInt (pySlice1 s) = none ∨ pyInt (pySlice1 e) = none) :
    parse_location_range s (some e) =
      .error (.valueError "invalid literal for int() with base 10") := by
  simp only [parse_location_range, data_isEmpty_false hne, hF,
    Bool.false_eq_true, if_false, if_true]
  rcases h with h | h <;>
    [skip; cases hx : pyInt (pySlice1 s)] <;>
    [skip; skip; cases hy : pyInt (pySlice1 e)] <;>
    simp_all

theorem parse_cellar_same_row (s e : String) (r sc ec : Nat)
    (hs : parseRC s = some (r, sc)) (he : parseRC e = some (r, ec)) :
    parse_location_range s (some e) = .ok (ascCellar r sc (ec + 1 - sc)) := by
  obtain ⟨hF, -⟩ := parseRC_flags hs
  obtain ⟨-, hene⟩ := parseRC_flags he
  simp only [parse_location_range, data_isEmpty_false hene, hF,
    Bool.false_eq_true, if_false, hs, he, if_true, cellar_list_eq]

theorem parse_cellar_diff_row (s e : String) (sr sc er ec : Nat)
    (hs : parseRC s = some (sr, sc)) (he : parseRC e = some (er, ec))
    (hrow : sr ≠ er) :
    parse_location_range s (some e) = .ok [s] := by
  obtain ⟨hF, -⟩ := parseRC_flags hs
  obtain ⟨-, hene⟩ := parseRC_flags he
  simp only [parse_location_range, data_isEmpty_false hene, hF,
    Bool.false_eq_true, if_false, hs, he, hrow, if_true]

theorem parse_cellar_fail (s e : String)
    (hF : pyStartswith s "F" = false) (hne : e.data ≠ [])
    (h : parseRC s = none ∨ parseRC e = none) :
    parse_location_range s (some e) = .ok [s] := by
  simp only [parse_location_range, data_isEmpty_false hne, hF,
    Bool.false_eq_true, if_false]
  cases hx : parseRC s with
  | none => rfl
  | some p =>
      cases hy : parseRC e with
      | none => rfl
      | some q => simp_all

/-! ## Lemmas about the assignment loop -/

theorem updateSlotWine_preserves_code (db : List Slot) (w : Nat) (loc l : String) :
    ((updateSlotWine db w loc).1).any (fun s => s.location_code == l)
      = db.any (fun s => s.location_code == l) := by
  unfold updateSlotWine
  simp only [List.any_map]
  have h : ((fun s : Slot => s.location_code == l) ∘
      (fun s : Slot => if s.location_code == loc then { s with wine_id := some w } else s))
      = (fun s : Slot => s.location_code == l) := by
    funext s
    by_cases hc : (s.location_code == loc) = true <;> simp [Function.comp, hc]
  rw [h]

theorem assignLoop_fst (w : Nat) : ∀ (M : List String) (db : List Slot),
    (assignLoop db w M).1 = db.map (fun s =>
      if M.any (fun l => s.location_code == l) then { s with wine_id := some w } else s) := by
  intro M
  induction M with
  | nil => intro db; simp [assignLoop]
  | cons loc rest ih =>
      intro db
      show (assignLoop (updateSlotWine db w loc).1 w rest).1 = _
      rw [ih]
      unfold updateSlotWine
      rw [List.map_map]
      apply List.map_congr_left
      intro s _
      by_cases hc : (s.location_code == loc) = true
      · simp [Function.comp, hc, List.any_cons]
      · simp only [Function.comp_apply, hc, if_false, List.any_cons,
          Bool.false_or, if_neg, hc]
        simp [hc]

theorem assignLoop_snd (w : Nat) : ∀ (M : List String) (db : List Slot),
    (assignLoop db w M).2
      = M.countP (fun l => db.any (fun s => s.location_code == l)) := by
  intro M
  induction M with
  | nil => intro db; simp [assignLoop]
  | cons loc rest ih =>
      intro db
      show (if 0 < (updateSlotWine db w loc).2 then 1 else 0)
          + (assignLoop (updateSlotWine db w loc).1 w rest).2 = _
      rw [ih]
      have hpres : (fun l => ((updateSlotWine db w loc).1).any
            (fun s => s.location_code == l))
          = (fun l => db.any (fun s => s.location_code == l)) :=
        funext (fun l => updateSlotWine_preserves_code db w loc l)
      rw [hpres, List.countP_cons]
      have hcnt : (if 0 < (updateSlotWine db w loc).2 then 1 else 0)
          = (if db.any (fun s => s.location_code == loc) then 1 else 0) := by
        unfold updateSlotWine
        by_cases h : db.any (fun s => s.location_code == loc) = true
        · rw [if_pos h, if_pos]
          rw [List.countP_pos_iff]
          simpa using h
        · rw [if_neg h, if_neg]
          rw [List.countP_pos_iff]
          simp only [List.any_eq_true] at h
          simpa using h
      rw [hcnt]
      by_cases h : db.any (fun s => s.location_code == loc) = true <;>
        simp [h, Nat.add_comm]

theorem take_eq_take_min (L : List String) (n : Nat) :
    L.take n = L.take (min n L.length) := by
  by_cases h : n ≤ L.length
  · rw [Nat.min_eq_left h]
  · rw [Nat.min_eq_right (by omega), List.take_length,
      List.take_of_length_le (by omega)]

/-! ## Lemmas about `generate_slots` -/

theorem foldl_insert_present : ∀ (l : List Slot) (db : List Slot),
    (∀ s ∈ l, db.any (fun t => t.location_code == s.location_code) = true) →
    l.foldl insertOrIgnoreSlot db = db := by
  intro l
  induction l with
  | nil => intro db _; rfl
  | cons s rest ih =>
      intro db h
      show rest.foldl insertOrIgnoreSlot (insertOrIgnoreSlot db s) = db
      rw [insertOrIgnoreSlot, if_pos (h s (List.mem_cons_self s rest))]
      exact ih db (fun t ht => h t (List.mem_cons_of_mem s ht))

theorem foldl_insert_fresh : ∀ (l : List Slot) (db : List Slot),
    (l.map (fun s => s.location_code)).Nodup →
    (∀ s ∈ l, db.any (fun t => t.location_code == s.location_code) = false) →
    l.foldl insertOrIgnoreSlot db = db ++ l := by
  intro l
  induction l with
  | nil => intro db _ _; simp
  | cons s rest ih =>
      intro db hnd hfr
      show rest.foldl insertOrIgnoreSlot (insertOrIgnoreSlot db s) = db ++ s :: rest
      rw [insertOrIgnoreSlot, if_neg (by
        rw [hfr s (List.mem_cons_self s rest)]; simp)]
      rw [List.map_cons, List.nodup_cons] at hnd
      rw [ih (db ++ [s]) hnd.2 ?_]
      · simp
      · intro t ht
        rw [List.any_append]
        rw [hfr t (List.mem_cons_of_mem s ht)]
        simp only [Bool.false_or, List.any_cons, List.any_nil, Bool.or_false]
        have : t.location_code ≠ s.location_code := by
          intro hEq
          exact hnd.1 (hEq ▸ List.mem_map_of_mem (fun s => s.location_code) ht)
        simpa using fun hEq => this (by simp [hEq])

set_option maxRecDepth 8000 in
/-- `generate_slots` on an empty table produces exactly the insert list:
all 178 location codes are pairwise distinct, so no insert is ignored. -/
theorem generate_slots_nil : generate_slots [] = fridgeInserts ++ cellarInserts := by
  have h := foldl_insert_fresh (fridgeInserts ++ cellarInserts) []
    (by decide) (by intro s _; rfl)
  simpa [generate_slots] using h

/-! ## Claim theorems -/

/-- C1 counterexample: the claim says that for every pair of non-empty
codes that fail to parse as a valid range, `parse_location_range` returns
`[start_code]` and raises no error, *including* when `start_code` begins
with `F` but is not of the form `F<integer>`.  At the concrete input
`("Fx", "F1")` the fridge branch calls `int("x")`, which raises
`ValueError` — the call errors instead of returning `["Fx"]`. -/
theorem claim_C1_counterexample :
    parse_location_range "Fx" (some "F1")
      = .error (.valueError "invalid literal for int() with base 10") := rfl

/-- C1 (amended): fail-soft applies only to the cellar branch.  For
non-empty codes where `start_code` does not begin with `F`, if either code
fails the `R<row>C<col>` pattern the result is `[start_code]` with no
error; but when `start_code` begins with `F` and either code-point suffix
fails to parse as an integer, the call raises `ValueError` instead. -/
theorem claim_C1 :
    (∀ s e : String, pyStartswith s "F" = false → e.data ≠ [] →
      (parseRC s = none ∨ parseRC e = none) →
      parse_location_range s (some e) = .ok [s])
    ∧ (∀ s e : String, pyStartswith s "F" = true → e.data ≠ [] →
      (pyInt (pySlice1 s) = none ∨ pyInt (pySlice1 e) = none) →
      parse_location_range s (some e)
        = .error (.valueError "invalid literal for int() with base 10")) :=
  ⟨parse_cellar_fail, parse_fridge_error⟩

/-- C1 witness: `("X1", "Y")` fails both cellar patterns and falls back to
`["X1"]` without error. -/
theorem claim_C1_witness :
    pyStartswith "X1" "F" = false ∧ ("Y" : String).data ≠ []
    ∧ parseRC "X1" = none
    ∧ parse_location_range "X1" (some "Y") = .ok ["X1"] :=
  ⟨by decide, by decide, by decide,
    claim_C1.1 "X1" "Y" (by decide) (by decide) (Or.inl (by decide))⟩

/-- C2 (confirmed): whenever `start_code` begins with `F` and both
code-point suffixes parse as integers `sn` and `en`, the result is the
ascending enumeration `F<sn>, F<sn+1>, ..., F<en>` — with no bounds
validation against the physical 1-9 range, since `sn` and `en` range over
all integers here. -/
theorem claim_C2 (s e : String) (sn en : Int)
    (hF : pyStartswith s "F" = true)
    (hs : pyInt (pySlice1 s) = some sn) (he : pyInt (pySlice1 e) = some en)
    (hne : e.data ≠ []) :
    parse_location_range s (some e) = .ok (ascFridge sn (en + 1 - sn).toNat) :=
  parse_fridge_eq s e sn en hF hs he hne

/-- C2 witness: `resolve("F3", "F6")` is `["F3","F4","F5","F6"]`. -/
theorem claim_C2_witness :
    pyStartswith "F3" "F" = true ∧ pyInt (pySlice1 "F3") = some 3
    ∧ pyInt (pySlice1 "F6") = some 6 ∧ ("F6" : String).data ≠ []
    ∧ parse_location_range "F3" (some "F6") = .ok ["F3", "F4", "F5", "F6"] := by
  refine ⟨by decide, by decide, by decide, by decide, ?_⟩
  have h := claim_C2 "F3" "F6" 3 6 (by decide) (by decide) (by decide) (by decide)
  rw [h]
  rfl

/-- C3 (confirmed): for two codes accepted by the cellar pattern with the
same row `r`, the result is the ascending enumeration of columns
`sc, sc+1, ..., ec` within row `r`. -/
theorem claim_C3 (s e : String) (r sc ec : Nat)
    (hs : parseRC s = some (r, sc)) (he : parseRC e = some (r, ec)) :
    parse_location_range s (some e) = .ok (ascCellar r sc (ec + 1 - sc)) :=
  parse_cellar_same_row s e r sc ec hs he

/-- C3 witness: `resolve("R10C1", "R10C3")` is `["R10C1","R10C2","R10C3"]`. -/
theorem claim_C3_witness :
    parseRC "R10C1" = some (10, 1) ∧ parseRC "R10C3" = some (10, 3)
    ∧ parse_location_range "R10C1" (some "R10C3")
        = .ok ["R10C1", "R10C2", "R10C3"] := by
  refine ⟨by decide, by decide, ?_⟩
  have h := claim_C3 "R10C1" "R10C3" 10 1 3 (by decide) (by decide)
  rw [h]
  rfl

/-- C4 counterexample: the claim says `[start_code]` is returned in
*exactly* two non-error situations — empty/absent `end_code`, or
well-formed cellar codes with differing rows.  The input `("F3", "F3")`
is neither (its `end_code` is non-empty and it is not a cellar code:
the `R<row>C<col>` pattern rejects `"F3"`), yet the degenerate one-element
fridge range also returns `["F3"]`.  So these are not the only two such
situations. -/
theorem claim_C4_counterexample :
    parse_location_range "F3" (some "F3") = .ok ["F3"]
    ∧ ("F3" : String).data ≠ [] ∧ parseRC "F3" = none :=
  ⟨rfl, by decide, by decide⟩

/-- C4 (amended): with "exactly" dropped — each of the two listed
situations does produce the single-element sequence `[start_code]`:
(a) an absent (`none`) or empty `end_code`, and (b) well-formed cellar
codes whose rows differ; in particular
`resolve("R1C7", "R2C1")` is `["R1C7"]`.  (Degenerate one-element ranges
and parse failures can also produce `[start_code]`, so these two are not
the only such situations.) -/
theorem claim_C4 :
    (∀ s : String, parse_location_range s none = .ok [s])
    ∧ (∀ s : String, parse_location_range s (some "") = .ok [s])
    ∧ (∀ (s e : String) (sr sc er ec : Nat), parseRC s = some (sr, sc) →
        parseRC e = some (er, ec) → sr ≠ er →
        parse_location_range s (some e) = .ok [s]) :=
  ⟨fun _ => rfl, fun _ => rfl, parse_cellar_diff_row⟩

/-- C4 witness: the cross-row fallback `resolve("R1C7", "R2C1")` is
`["R1C7"]`. -/
theorem claim_C4_witness :
    parseRC "R1C7" = some (1, 7) ∧ parseRC "R2C1" = some (2, 1)
    ∧ (1 : Nat) ≠ 2
    ∧ parse_location_range "R1C7" (some "R2C1") = .ok ["R1C7"] :=
  ⟨by decide, by decide, by decide,
    claim_C4.2.2 "R1C7" "R2C1" 1 7 2 1 (by decide) (by decide) (by decide)⟩

/-- C5 (confirmed): the assignment step iterates over
`locations[:bottle_count]`, i.e. the first `min(n, |L|)` locations in
resolved order; any table row whose `location_code` is not among that
prefix is returned entirely unchanged (in particular its `wine_id`); and
when `n` exceeds `|L|` the step runs over all of `L` and returns normally
(the model is a total function — nothing is raised, the remaining count
is simply unfulfilled). -/
theorem claim_C5 (db : List Slot) (w : Nat) (L : List String) (n : Nat) :
    assign db w L n = assignLoop db w (L.take (min n L.length))
    ∧ (∀ (i : Nat) (s : Slot), db[i]? = some s →
        s.location_code ∉ L.take (min n L.length) →
        ((assign db w L n).1)[i]? = some s)
    ∧ (L.length ≤ n → assign db w L n = assignLoop db w L) := by
  refine ⟨?_, ?_, ?_⟩
  · unfold assign
    rw [← take_eq_take_min]
  · intro i s hi hnot
    rw [← take_eq_take_min] at hnot
    unfold assign
    rw [assignLoop_fst, List.getElem?_map, hi]
    have hany : (L.take n).any (fun l => s.location_code == l) = false := by
      rw [Bool.eq_false_iff]
      intro hT
      rw [List.any_eq_true] at hT
      obtain ⟨l, hl, hb⟩ := hT
      exact hnot ((beq_iff_eq.mp hb) ▸ hl)
    rw [Option.map_some', hany]
    rfl
  · intro h
    unfold assign
    rw [List.take_of_length_le h]

/-- A concrete empty fridge slot `F1`, used in witnesses. -/
def slotF1 : Slot :=
  { zone := "fridge", location_code := "F1", row_num := 1, col_num := 1, wine_id := none }

/-- A concrete empty fridge slot `F2`, used in witnesses. -/
def slotF2 : Slot :=
  { zone := "fridge", location_code := "F2", row_num := 1, col_num := 2, wine_id := none }

/-- C5 witness: with table `[F1, F2]`, wine 7, locations
`["F1","F2"]` and `bottle_count = 1`, the slot `F2` is outside the used
prefix and is returned unchanged. -/
theorem claim_C5_witness :
    ([slotF1, slotF2] : List Slot)[1]? = some slotF2
    ∧ "F2" ∉ (["F1", "F2"] : List String).take (min 1 (["F1", "F2"] : List String).length)
    ∧ ((assign [slotF1, slotF2] 7 ["F1", "F2"] 1).1)[1]? = some slotF2 :=
  ⟨by decide, by decide,
    (claim_C5 [slotF1, slotF2] 7 ["F1", "F2"] 1).2.1 1 slotF2 (by decide) (by decide)⟩

set_option maxRecDepth 100000 in
/-- C6 (confirmed): for every table, wine and location sequence, the
assignment loop sets `wine_id` on exactly the rows whose `location_code`
occurs in the sequence, leaves every other row unchanged, and returns the
number of iterations whose code matched an existing row (codes matching
no row are skipped without effect); in particular assigning `["F99"]`
against the generated layout (which has no `F99`) fills 0 slots, changes
nothing, and raises no error. -/
theorem claim_C6 :
    (∀ (db : List Slot) (w : Nat) (locs : List String),
      (∀ i : Nat, ((assignLoop db w locs).1)[i]?
          = (db[i]?).map (fun s =>
              if s.location_code ∈ locs then { s with wine_id := some w } else s))
      ∧ (assignLoop db w locs).2
          = locs.countP (fun l => db.any (fun s => s.location_code == l)))
    ∧ assignLoop (generate_slots []) 1 ["F99"] = (generate_slots [], 0) := by
  constructor
  · intro db w locs
    constructor
    · intro i
      rw [assignLoop_fst, List.getElem?_map]
      have hfun : (fun s : Slot =>
            if locs.any (fun l => s.location_code == l) then { s with wine_id := some w } else s)
          = (fun s : Slot =>
            if s.location_code ∈ locs then { s with wine_id := some w } else s) := by
        funext s
        by_cases h : s.location_code ∈ locs
        · rw [if_pos h, if_pos]
          rw [List.any_eq_true]
          exact ⟨s.location_code, h, by simp⟩
        · rw [if_neg h, if_neg]
          rw [List.any_eq_true]
          rintro ⟨l, hl, hb⟩
          exact h ((beq_iff_eq.mp hb) ▸ hl)
      rw [hfun]
    · exact assignLoop_snd w locs db
  · rw [generate_slots_nil]
    decide

/-- C7 (confirmed): `normalise_colour` is a pure total function whose
result is always one of the four canonical buckets, with
`"Champagne Rosé"` classified as sparkling (exact red/white/rose checks
fail, the `champagne` substring check fires) and the unmatched
`"unknown"` defaulting to white. -/
theorem claim_C7 :
    (∀ s : String, normalise_colour s = "red" ∨ normalise_colour s = "white"
      ∨ normalise_colour s = "rose" ∨ normalise_colour s = "sparkling")
    ∧ normalise_colour "Champagne Rosé" = "sparkling"
    ∧ normalise_colour "unknown" = "white" := by
  refine ⟨?_, rfl, rfl⟩
  intro s
  have h : ∀ c : String,
      (if c = "red" then "red"
       else if c = "white" then "white"
       else if c = "rose" ∨ c = "rosé" then "rose"
       else if pyIn "sparkl" c || pyIn "prosecco" c || pyIn "champagne" c then "sparkling"
       else "white") = "red"
      ∨ (if c = "red" then "red"
       else if c = "white" then "white"
       else if c = "rose" ∨ c = "rosé" then "rose"
       else if pyIn "sparkl" c || pyIn "prosecco" c || pyIn "champagne" c then "sparkling"
       else "white") = "white"
      ∨ (if c = "red" then "red"
       else if c = "white" then "white"
       else if c = "rose" ∨ c = "rosé" then "rose"
       else if pyIn "sparkl" c || pyIn "prosecco" c || pyIn "champagne" c then "sparkling"
       else "white") = "rose"
      ∨ (if c = "red" then "red"
       else if c = "white" then "white"
       else if c = "rose" ∨ c = "rosé" then "rose"
       else if pyIn "sparkl" c || pyIn "prosecco" c || pyIn "champagne" c then "sparkling"
       else "white") = "sparkling" := by
    intro c
    split_ifs <;> simp
  exact h (pyStrip (pyLower s))

set_option maxRecDepth 100000 in
/-- C8 (confirmed): slot generation is idempotent under insert-or-ignore
semantics — on any table already containing a row for each generated
`location_code` it is the identity (no duplication, no alteration of any
row, occupants included) — and on an empty table it produces exactly the
fixed physical layout: the 178 codes `F1`-`F9`, `R1C1`-`R1C7`, and
`R2C1`-`R19C9`, all unoccupied, 9 in the fridge zone and 169 in the
cellar zone. -/
theorem claim_C8 :
    (∀ db : List Slot,
      (∀ s ∈ fridgeInserts ++ cellarInserts, ∃ t ∈ db, t.location_code = s.location_code) →
      generate_slots db = db)
    ∧ (generate_slots []).map (fun s => s.location_code) = specSlotCodes
    ∧ (∀ s ∈ generate_slots [], s.wine_id = none)
    ∧ (generate_slots []).countP (fun s => s.zone == "fridge") = 9
    ∧ (generate_slots []).countP (fun s => s.zone == "cellar") = 169 := by
  refine ⟨?_, ?_, ?_, ?_, ?_⟩
  · intro db h
    apply foldl_insert_present
    intro s hs
    rw [List.any_eq_true]
    obtain ⟨t, ht, he⟩ := h s hs
    exact ⟨t, ht, by simp [he]⟩
  · rw [generate_slots_nil]; decide
  · rw [generate_slots_nil]; decide
  · rw [generate_slots_nil]; decide
  · rw [generate_slots_nil]; decide

/-- C8 witness: re-running generation on a table that already holds the
full layout changes nothing. -/
theorem claim_C8_witness :
    (∀ s ∈ fridgeInserts ++ cellarInserts, ∃ t ∈ fridgeInserts ++ cellarInserts,
      t.location_code = s.location_code)
    ∧ generate_slots (fridgeInserts ++ cellarInserts) = fridgeInserts ++ cellarInserts :=
  ⟨fun s hs => ⟨s, hs, rfl⟩, claim_C8.1 _ (fun s hs => ⟨s, hs, rfl⟩)⟩

/-- C9 (confirmed): a reversed fridge range (`en < sn`) and a reversed
same-row cellar range (`ec < sc`) both produce the empty sequence, not
the `[start_code]` fallback, and the downstream assignment step over an
empty location sequence fills zero slots and leaves the table unchanged. -/
theorem claim_C9 :
    (∀ (s e : String) (sn en : Int), pyStartswith s "F" = true →
      pyInt (pySlice1 s) = some sn → pyInt (pySlice1 e) = some en →
      e.data ≠ [] → en < sn → parse_location_range s (some e) = .ok [])
    ∧ (∀ (s e : String) (r sc ec : Nat), parseRC s = some (r, sc) →
      parseRC e = some (r, ec) → ec < sc → parse_location_range s (some e) = .ok [])
    ∧ (∀ (db : List Slot) (w n : Nat), assign db w [] n = (db, 0)) := by
  refine ⟨?_, ?_, ?_⟩
  · intro s e sn en hF hs he hne hlt
    rw [parse_fridge_eq s e sn en hF hs he hne]
    have h0 : (en + 1 - sn).toNat = 0 := by omega
    rw [h0]
    rfl
  · intro s e r sc ec hs he hlt
    rw [parse_cellar_same_row s e r sc ec hs he]
    have h0 : ec + 1 - sc = 0 := by omega
    rw [h0]
    rfl
  · intro db w n
    unfold assign
    rw [List.take_nil]
    rfl

/-- C9 witness: `resolve("F6", "F3")` is the empty sequence. -/
theorem claim_C9_witness :
    pyStartswith "F6" "F" = true ∧ pyInt (pySlice1 "F6") = some 6
    ∧ pyInt (pySlice1 "F3") = some 3 ∧ ("F3" : String).data ≠ []
    ∧ (3 : Int) < 6
    ∧ parse_location_range "F6" (some "F3") = .ok [] :=
  ⟨by decide, by decide, by decide, by decide, by decide,
    claim_C9.1 "F6" "F3" 6 3 (by decide) (by decide) (by decide) (by decide)
      (by decide)⟩

/-- C10 (confirmed): with `force_ocr` set, PyMuPDF importable, and EasyOCR
and pdf2image not both importable, the dispatcher skips the first branch
(so the local `result` is never assigned), skips the EasyOCR branch, and
then executes `if HAS_PYMUPDF: return result`, reading the unassigned
local — an `UnboundLocalError` instead of the documented
`{success: false, error}` dictionary; this holds for every PDF (i.e.
every value of the extracted text and of the EasyOCR outcome). -/
theorem claim_C10 (pymupdfText : String) (easyocrOutcome : PdfOutcome)
    (hasEasyOCR hasPdf2Image : Bool)
    (h : ¬(hasEasyOCR = true ∧ hasPdf2Image = true)) :
    extract_text_from_pdf true hasEasyOCR hasPdf2Image true pymupdfText easyocrOutcome
      = .error (.unboundLocal "result") := by
  have hb : (hasEasyOCR && hasPdf2Image) = false := by
    cases hasEasyOCR <;> cases hasPdf2Image <;> simp_all
  unfold extract_text_from_pdf
  simp [hb]

/-- C10 witness: PyMuPDF importable, EasyOCR missing, `--force-ocr`
set — the call raises `UnboundLocalError`. -/
theorem claim_C10_witness :
    ¬((false : Bool) = true ∧ (true : Bool) = true)
    ∧ extract_text_from_pdf true false true true "" (.failure "e")
        = .error (.unboundLocal "result") :=
  ⟨by decide, claim_C10 "" (.failure "e") false true (by decide)⟩

end WineCellar
